import Mathlib

/-!
# Network Next buyer key generator (`keygen/keygen.go`)

A shallow embedding of `main` from `keygen.go`.  The program draws an
8-byte buyer id, asks `ed25519.GenerateKey` for a key pair, prepends the
id to both halves, base64-encodes the two byte strings and prints them.

The operating system and the Go standard library are the environment of
the program: what `rand.Read` and `ed25519.GenerateKey` hand back is a
parameter of a run (`Env`); `append`, `base64.StdEncoding`, `fmt.Printf`
and `log.Fatalln` are rendered after the Go standard library.

`main` is the body of `func main()`.  `runProcess` is the program as a
process: `crypto/rand.Read` ends the process by itself when the random
source fails, and hands control back to `main` only after a full draw.
-/

namespace Keygen

/-- A Go `byte`. -/
abbrev Byte := Fin 256

/-! ## Go builtins -/

/-- Go `make([]byte, n)`: a slice of `n` zero bytes. -/
def make (n : Nat) : List Byte := List.replicate n 0

/-- Go `append(s, t...)`. -/
def append (s t : List Byte) : List Byte := s ++ t

/-! ## Environment -/

/-- What the world hands to one run of the program.

* `randBytes`: the bytes the secure random source delivers to the one
  `rand.Read` call before it stops (eight of them when the draw succeeds,
  fewer when it fails);
* `randErr`: the error `rand.Read` reports when it delivered fewer bytes
  than asked for;
* `publicKey`, `privateKey`, `keyErr`: the three results of
  `ed25519.GenerateKey(nil)`. -/
structure Env where
  randBytes : List Byte
  randErr : String
  publicKey : List Byte
  privateKey : List Byte
  keyErr : Option String
deriving DecidableEq

/-- Go `rand.Read(b)` (`func Read(b []byte) (n int, err error)`, that is
`io.ReadFull(rand.Reader, b)`): fills the front of `b` with the bytes the
source delivers, leaves the rest of `b` untouched, and returns how many
bytes were written together with an error when `b` was not filled.  The
first component is the buffer after the call.  An error here never reaches
the caller of `rand.Read`: `rand.Read` turns it into a fatal error of the
process, see `runProcess`. -/
def rand_Read (env : Env) (b : List Byte) : List Byte × Nat × Option String :=
  let n := min env.randBytes.length b.length
  (env.randBytes.take n ++ b.drop n, n, if n < b.length then some env.randErr else none)

/-- Go `ed25519.GenerateKey(nil)`: `(PublicKey, PrivateKey, error)`. -/
def ed25519_GenerateKey (env : Env) : List Byte × List Byte × Option String :=
  (env.publicKey, env.privateKey, env.keyErr)

/-! ## `encoding/base64`, `StdEncoding` -/

/-- Go `encodeStd`, the standard base64 alphabet. -/
def encodeStd : String :=
  "ABCDEFGHIJKLMNOPQRSTUVWXYZabcdefghijklmnopqrstuvwxyz0123456789+/"

/-- Go `StdPadding`. -/
def padChar : Char := '='

/-- Go `enc.encode[i]`, the alphabet as a 64-entry table. -/
def encode (i : Nat) : Char := encodeStd.data.getD i 'A'

/-- Go `(*Encoding).Encode` for `StdEncoding`, on character lists: every
three source bytes give four characters; a remainder of one or two bytes
gives two or three characters and is padded to four. -/
def encodeChars : List Byte → List Char
  | [] => []
  | [b0] =>
    let val := b0.val <<< 16
    [encode (val >>> 18 &&& 0x3F), encode (val >>> 12 &&& 0x3F), padChar, padChar]
  | [b0, b1] =>
    let val := b0.val <<< 16 ||| b1.val <<< 8
    [encode (val >>> 18 &&& 0x3F), encode (val >>> 12 &&& 0x3F),
      encode (val >>> 6 &&& 0x3F), padChar]
  | b0 :: b1 :: b2 :: rest =>
    let val := b0.val <<< 16 ||| b1.val <<< 8 ||| b2.val
    encode (val >>> 18 &&& 0x3F) :: encode (val >>> 12 &&& 0x3F) ::
      encode (val >>> 6 &&& 0x3F) :: encode (val &&& 0x3F) :: encodeChars rest

/-- Go `base64.StdEncoding.EncodeToString`. -/
def EncodeToString (src : List Byte) : String := String.mk (encodeChars src)

/-- Go `enc.decodeMap`: the position of a character in the alphabet, or
nothing for a character outside it (`0xFF` in Go). -/
def decodeMap (c : Char) : Option Nat :=
  let i := encodeStd.data.indexOf c
  if i < 64 then some i else none

/-- Go `byte(v)`: the low eight bits. -/
def toByte (v : Nat) : Byte := ⟨v % 256, Nat.mod_lt _ (by decide)⟩

/-- Go `(*Encoding).decodeQuantum`, iterated, for `StdEncoding` on input
free of line breaks: four characters give three bytes; padding is accepted
only in the last group of four, as `xx==` (one byte) or `xxx=` (two
bytes); anything else is a `CorruptInputError`. -/
def decodeChars : List Char → Option (List Byte)
  | [] => some []
  | c0 :: c1 :: c2 :: c3 :: rest =>
    match decodeMap c0, decodeMap c1 with
    | some d0, some d1 =>
      if c2 = padChar then
        if c3 = padChar ∧ rest = [] then
          let val := d0 <<< 18 ||| d1 <<< 12
          some [toByte (val >>> 16)]
        else none
      else
        match decodeMap c2 with
        | none => none
        | some d2 =>
          if c3 = padChar then
            if rest = [] then
              let val := d0 <<< 18 ||| d1 <<< 12 ||| d2 <<< 6
              some [toByte (val >>> 16), toByte (val >>> 8)]
            else none
          else
            match decodeMap c3 with
            | none => none
            | some d3 =>
              let val := d0 <<< 18 ||| d1 <<< 12 ||| d2 <<< 6 ||| d3
              match decodeChars rest with
              | none => none
              | some out => some (toByte (val >>> 16) :: toByte (val >>> 8) :: toByte val :: out)
    | _, _ => none
  | _ => none

/-- Go `base64.StdEncoding.DecodeString`: carriage returns and line feeds
are skipped, the rest is decoded group by group. -/
def DecodeString (s : String) : Option (List Byte) :=
  decodeChars (s.data.filter fun c => !(c == '\r' || c == '\n'))

/-! ## `fmt` and `log` -/

/-- Go `fmt.Sprintf` restricted to what `keygen.go` uses: ordinary
characters are copied, and each `%s` is replaced by the next string
operand. -/
def sprintfChars : List Char → List String → List Char
  | [], _ => []
  | [c], _ => [c]
  | c :: d :: rest, args =>
    if c = '%' ∧ d = 's' then
      match args with
      | a :: args => a.data ++ sprintfChars rest args
      | [] => "%!s(MISSING)".data ++ sprintfChars rest []
    else c :: sprintfChars (d :: rest) args

/-- The state of the process a run leaves behind. -/
structure Outcome where
  /-- Process exit status. -/
  exitCode : Nat
  /-- Everything written to standard output. -/
  stdout : String
  /-- The messages handed to the standard logger (it writes to standard error). -/
  logged : List String
  /-- Final value of the local `buyerId`. -/
  buyerId : List Byte
  /-- Final value of the local `buyerPublicKey`, the operand of the first `EncodeToString`. -/
  buyerPublicKey : List Byte
  /-- Final value of the local `buyerPrivateKey`, the operand of the second `EncodeToString`. -/
  buyerPrivateKey : List Byte
deriving DecidableEq

/-- Go `fmt.Printf(format, a...)`: appends the formatted text to standard output. -/
def Printf (stdout : String) (format : String) (a : List String) : String :=
  stdout ++ String.mk (sprintfChars format.data a)

/-- The function `main` of `keygen.go`. -/
def main (env : Env) : Outcome :=
  let buyerId := make 8
  let (buyerId, _, _) := rand_Read env buyerId
  let (publicKey, privateKey, err) := ed25519_GenerateKey env
  match err with
  | some e =>
    -- log.Fatalln(err): print to the logger, then os.Exit(1)
    { exitCode := 1, stdout := "", logged := [e], buyerId := buyerId,
      buyerPublicKey := [], buyerPrivateKey := [] }
  | none =>
    let buyerPublicKey := make 0
    let buyerPublicKey := append buyerPublicKey buyerId
    let buyerPublicKey := append buyerPublicKey publicKey
    let buyerPrivateKey := make 0
    let buyerPrivateKey := append buyerPrivateKey buyerId
    let buyerPrivateKey := append buyerPrivateKey privateKey
    let out := ""
    let out := Printf out "\nWelcome to Network Next!\n\n" []
    let out := Printf out "This is your public key:\n\n    %s\n\n" [EncodeToString buyerPublicKey]
    let out := Printf out "This is your private key:\n\n    %s\n\n" [EncodeToString buyerPrivateKey]
    let out := Printf out "IMPORTANT: Save your private key in a secure place and don\x27t share it with anybody, not even us!\n\n" []
    { exitCode := 0, stdout := out, logged := [], buyerId := buyerId,
      buyerPublicKey := buyerPublicKey, buyerPrivateKey := buyerPrivateKey }

/-- Go `fatal(msg)` of the runtime, as `crypto/rand.Read` (Go 1.24 and
later) calls it when reading from the random source returned an error
(`crypto/rand: failed to read random data`): the message goes to standard
error, nothing is written to standard output or to the logger, and the
process ends with exit status 2 without returning to the caller.  `buyerId` is the buffer as the failed
read left it. -/
def rand_fatal (buyerId : List Byte) : Outcome :=
  { exitCode := 2, stdout := "", logged := [], buyerId := buyerId,
    buyerPublicKey := [], buyerPrivateKey := [] }

/-- The program as a process.  The first statement that can fail is
`rand.Read(buyerId)`: when the read from the random source reports an
error, `rand.Read` does not return and the process ends in `rand_fatal`;
otherwise `rand.Read` returns `(8, nil)` and the run is that of `main`. -/
def runProcess (env : Env) : Outcome :=
  match rand_Read env (make 8) with
  | (buyerId, _, some _) => rand_fatal buyerId
  | (_, _, none) => main env

/-! ## Vocabulary of the specification -/

/-- The identifier of a run: the 8-byte buffer `buyerId` as `rand.Read` leaves it. -/
def identifier (env : Env) : List Byte := (rand_Read env (make 8)).1

/-- The encoded public credential of a run: the string the first
`EncodeToString` call returns for the final `buyerPublicKey`. -/
def publicCredential (env : Env) : String := EncodeToString (main env).buyerPublicKey

/-- The encoded private credential of a run: the string the second
`EncodeToString` call returns for the final `buyerPrivateKey`. -/
def privateCredential (env : Env) : String := EncodeToString (main env).buyerPrivateKey

/-- The thirteen lines of a successful run for encoded public credential `P`
and encoded private credential `S`, in order. -/
def outputLines (P S : String) : List String :=
  ["", "Welcome to Network Next!", "", "This is your public key:", "", "    " ++ P, "",
   "This is your private key:", "", "    " ++ S, "",
   "IMPORTANT: Save your private key in a secure place and don\x27t share it with anybody, not even us!",
   ""]

/-- The text made of the thirteen lines, each one terminated by a newline. -/
def outputText (P S : String) : String :=
  String.join ((outputLines P S).map fun l => l ++ "\n")

/-! ## Sample runs -/

/-- A 32-byte Ed25519 public key (the first test vector of RFC 8032). -/
def samplePublicKey : List Byte :=
  [0xd7, 0x5a, 0x98, 0x01, 0x82, 0xb1, 0x0a, 0xb7,
   0xd5, 0x4b, 0xfe, 0xd3, 0xc9, 0x64, 0x07, 0x3a,
   0x0e, 0xe1, 0x72, 0xf3, 0xda, 0xa6, 0x23, 0x25,
   0xaf, 0x02, 0x1a, 0x68, 0xf7, 0x07, 0x51, 0x1a]

/-- The 64-byte private key that goes with `samplePublicKey`, in the layout
of Go (the 32-byte seed followed by the public key). -/
def samplePrivateKey : List Byte :=
  [0x9d, 0x61, 0xb1, 0x9d, 0xef, 0xfd, 0x5a, 0x60,
   0xba, 0x84, 0x4a, 0xf4, 0x92, 0xec, 0x2c, 0xc4,
   0x44, 0x49, 0xc5, 0x69, 0x7b, 0x32, 0x69, 0x19,
   0x70, 0x3b, 0xac, 0x03, 0x1c, 0xae, 0x7f, 0x60] ++ samplePublicKey

/-- A run in which everything succeeds. -/
def goodRun : Env :=
  { randBytes := [0x12, 0x34, 0x56, 0x78, 0x9a, 0xbc, 0xde, 0xf0], randErr := "",
    publicKey := samplePublicKey, privateKey := samplePrivateKey, keyErr := none }

/-- A run in which `ed25519.GenerateKey` reports an error. -/
def failedKeyRun : Env :=
  { randBytes := [0x12, 0x34, 0x56, 0x78, 0x9a, 0xbc, 0xde, 0xf0], randErr := "",
    publicKey := [], privateKey := [], keyErr := some "entropy source unavailable" }

/-- An environment in which the random source delivers no byte to
`rand.Read` and reports an error, and in which `ed25519.GenerateKey`
succeeds when it is called. -/
def failedDrawRun : Env :=
  { randBytes := [], randErr := "entropy source unavailable",
    publicKey := samplePublicKey, privateKey := samplePrivateKey, keyErr := none }

/-! ## Bit arithmetic of the 24-bit groups -/

theorem pack3 (a b c : Nat) (hb : b < 256) (hc : c < 256) :
    a <<< 16 ||| b <<< 8 ||| c = a * 65536 + b * 256 + c := by
  rw [Nat.shiftLeft_eq, Nat.shiftLeft_eq]
  have h1 := Nat.mul_add_lt_is_or (i := 16) (b := b * 2 ^ 8) (by omega) a
  have e1 : a * 2 ^ 16 ||| b * 2 ^ 8 = 2 ^ 8 * (a * 256 + b) := by
    rw [Nat.mul_comm a (2 ^ 16), ← h1]; omega
  have h2 := Nat.mul_add_lt_is_or (i := 8) (b := c) (by omega) (a * 256 + b)
  rw [e1, ← h2]; omega

theorem pack2 (a b : Nat) (hb : b < 256) :
    a <<< 16 ||| b <<< 8 = a * 65536 + b * 256 := by
  have h := pack3 a b 0 hb (by decide)
  rw [Nat.or_zero, Nat.add_zero] at h
  exact h

theorem pack4 (a b c d : Nat) (hb : b < 64) (hc : c < 64) (hd : d < 64) :
    a <<< 18 ||| b <<< 12 ||| c <<< 6 ||| d = a * 262144 + b * 4096 + c * 64 + d := by
  rw [Nat.shiftLeft_eq, Nat.shiftLeft_eq, Nat.shiftLeft_eq]
  have h1 := Nat.mul_add_lt_is_or (i := 18) (b := b * 2 ^ 12) (by omega) a
  have e1 : a * 2 ^ 18 ||| b * 2 ^ 12 = 2 ^ 12 * (a * 64 + b) := by
    rw [Nat.mul_comm a (2 ^ 18), ← h1]; omega
  have h2 := Nat.mul_add_lt_is_or (i := 12) (b := c * 2 ^ 6) (by omega) (a * 64 + b)
  have e2 : 2 ^ 12 * (a * 64 + b) ||| c * 2 ^ 6 = 2 ^ 6 * (a * 4096 + b * 64 + c) := by
    rw [← h2]; omega
  have h3 := Nat.mul_add_lt_is_or (i := 6) (b := d) (by omega) (a * 4096 + b * 64 + c)
  rw [e1, e2, ← h3]; omega

theorem sextet18 (x : Nat) : x >>> 18 &&& 0x3F = x / 262144 % 64 := by
  rw [Nat.shiftRight_eq_div_pow]
  exact Nat.and_pow_two_sub_one_eq_mod _ 6

theorem sextet12 (x : Nat) : x >>> 12 &&& 0x3F = x / 4096 % 64 := by
  rw [Nat.shiftRight_eq_div_pow]
  exact Nat.and_pow_two_sub_one_eq_mod _ 6

theorem sextet6 (x : Nat) : x >>> 6 &&& 0x3F = x / 64 % 64 := by
  rw [Nat.shiftRight_eq_div_pow]
  exact Nat.and_pow_two_sub_one_eq_mod _ 6

theorem sextet0 (x : Nat) : x &&& 0x3F = x % 64 :=
  Nat.and_pow_two_sub_one_eq_mod _ 6

theorem pack4_three (a b c : Nat) (hb : b < 64) (hc : c < 64) :
    a <<< 18 ||| b <<< 12 ||| c <<< 6 = a * 262144 + b * 4096 + c * 64 := by
  have h := pack4 a b c 0 hb hc (by decide)
  rw [Nat.or_zero, Nat.add_zero] at h
  exact h

theorem pack4_two (a b : Nat) (hb : b < 64) :
    a <<< 18 ||| b <<< 12 = a * 262144 + b * 4096 := by
  have h := pack4_three a b 0 hb (by decide)
  rw [Nat.zero_shiftLeft, Nat.or_zero, Nat.zero_mul, Nat.add_zero] at h
  exact h

theorem shl16 (a : Nat) : a <<< 16 = a * 65536 := by
  rw [Nat.shiftLeft_eq]

theorem toByte_shift16 (v : Nat) : toByte (v >>> 16) = toByte (v / 65536) := by
  rw [Nat.shiftRight_eq_div_pow]

theorem toByte_shift8 (v : Nat) : toByte (v >>> 8) = toByte (v / 256) := by
  rw [Nat.shiftRight_eq_div_pow]

theorem toByte_eq (v : Nat) (b : Byte) (h : v % 256 = b.val) : toByte v = b :=
  Fin.ext h

/-! ## The alphabet table -/

theorem decodeMap_encode (i : Nat) (h : i < 64) : decodeMap (encode i) = some i := by
  interval_cases i <;> rfl

theorem encode_ne_pad (i : Nat) (h : i < 64) : encode i ≠ padChar := by
  interval_cases i <;> decide

theorem encode_ne_cr (i : Nat) (h : i < 64) : encode i ≠ '\r' := by
  interval_cases i <;> decide

theorem encode_ne_lf (i : Nat) (h : i < 64) : encode i ≠ '\n' := by
  interval_cases i <;> decide

/-! ## Decoding undoes encoding -/

theorem decodeMap_encode_mod (x : Nat) : decodeMap (encode (x % 64)) = some (x % 64) :=
  decodeMap_encode _ (Nat.mod_lt _ (by decide))

theorem encode_mod_ne_pad (x : Nat) : encode (x % 64) ≠ padChar :=
  encode_ne_pad _ (Nat.mod_lt _ (by decide))

theorem decodeChars_encodeChars (src : List Byte) :
    decodeChars (encodeChars src) = some src := by
  induction src using encodeChars.induct with
  | case1 => rfl
  | case2 b0 =>
    simp only [encodeChars, decodeChars, shl16, sextet18, sextet12,
      decodeMap_encode_mod, if_true, and_self]
    rw [pack4_two _ _ (Nat.mod_lt _ (by decide)), toByte_shift16]
    congr 2
    apply toByte_eq
    omega
  | case3 b0 b1 =>
    simp only [encodeChars, decodeChars, pack2 _ _ b1.isLt, sextet18, sextet12, sextet6,
      decodeMap_encode_mod, if_true, and_self, encode_mod_ne_pad, if_false]
    rw [pack4_three _ _ _ (Nat.mod_lt _ (by decide)) (Nat.mod_lt _ (by decide)),
      toByte_shift16, toByte_shift8]
    have h0 := b0.isLt
    have h1 := b1.isLt
    congr 2
    · apply toByte_eq; omega
    · congr 1; apply toByte_eq; omega
  | case4 b0 b1 b2 rest ih =>
    simp only [encodeChars, decodeChars, pack3 _ _ _ b1.isLt b2.isLt, sextet18, sextet12, sextet6,
      sextet0, decodeMap_encode_mod, encode_mod_ne_pad, if_false, ih]
    rw [pack4 _ _ _ _ (Nat.mod_lt _ (by decide)) (Nat.mod_lt _ (by decide))
      (Nat.mod_lt _ (by decide)), toByte_shift16, toByte_shift8]
    have h0 := b0.isLt
    have h1 := b1.isLt
    have h2 := b2.isLt
    congr 2
    · apply toByte_eq; omega
    · congr 1
      · apply toByte_eq; omega
      · congr 1; apply toByte_eq; omega

theorem encode_mod_ne_cr (x : Nat) : encode (x % 64) ≠ '\r' :=
  encode_ne_cr _ (Nat.mod_lt _ (by decide))

theorem encode_mod_ne_lf (x : Nat) : encode (x % 64) ≠ '\n' :=
  encode_ne_lf _ (Nat.mod_lt _ (by decide))

theorem encodeChars_no_break (src : List Byte) :
    ∀ c ∈ encodeChars src, (!(c == '\r' || c == '\n')) = true := by
  induction src using encodeChars.induct with
  | case1 => simp [encodeChars]
  | case2 b0 =>
    simp [encodeChars, sextet18, sextet12, encode_mod_ne_cr, encode_mod_ne_lf, padChar]
  | case3 b0 b1 =>
    simp [encodeChars, sextet18, sextet12, sextet6, encode_mod_ne_cr, encode_mod_ne_lf, padChar]
  | case4 b0 b1 b2 rest ih =>
    intro c hc
    simp only [encodeChars, sextet18, sextet12, sextet6, sextet0, List.mem_cons] at hc
    rcases hc with h | h | h | h | h
    · subst h; simp [encode_mod_ne_cr, encode_mod_ne_lf]
    · subst h; simp [encode_mod_ne_cr, encode_mod_ne_lf]
    · subst h; simp [encode_mod_ne_cr, encode_mod_ne_lf]
    · subst h; simp [encode_mod_ne_cr, encode_mod_ne_lf]
    · exact ih c h

theorem DecodeString_EncodeToString (src : List Byte) :
    DecodeString (EncodeToString src) = some src := by
  unfold DecodeString EncodeToString
  rw [List.filter_eq_self.mpr (encodeChars_no_break src)]
  exact decodeChars_encodeChars src

/-! ## Length and padding of the encoded text -/

theorem encodeChars_length (src : List Byte) :
    (encodeChars src).length = 4 * ((src.length + 2) / 3) := by
  induction src using encodeChars.induct with
  | case1 => rfl
  | case2 b0 => simp [encodeChars]
  | case3 b0 b1 => simp [encodeChars]
  | case4 b0 b1 b2 rest ih =>
    simp only [encodeChars, List.length_cons, ih]
    omega

theorem encodeChars_padding (src : List Byte) :
    ∃ body, encodeChars src = body ++ List.replicate ((3 - src.length % 3) % 3) padChar ∧
      ∀ c ∈ body, c ≠ padChar := by
  induction src using encodeChars.induct with
  | case1 => exact ⟨[], rfl, by simp⟩
  | case2 b0 =>
    refine ⟨[encode ((b0.val <<< 16) >>> 18 &&& 0x3F), encode ((b0.val <<< 16) >>> 12 &&& 0x3F)],
      rfl, ?_⟩
    simp [sextet18, sextet12, encode_mod_ne_pad]
  | case3 b0 b1 =>
    refine ⟨[encode ((b0.val <<< 16 ||| b1.val <<< 8) >>> 18 &&& 0x3F),
      encode ((b0.val <<< 16 ||| b1.val <<< 8) >>> 12 &&& 0x3F),
      encode ((b0.val <<< 16 ||| b1.val <<< 8) >>> 6 &&& 0x3F)], rfl, ?_⟩
    simp [sextet18, sextet12, sextet6, encode_mod_ne_pad]
  | case4 b0 b1 b2 rest ih =>
    obtain ⟨body, hb, hc⟩ := ih
    refine ⟨encode ((b0.val <<< 16 ||| b1.val <<< 8 ||| b2.val) >>> 18 &&& 0x3F) ::
      encode ((b0.val <<< 16 ||| b1.val <<< 8 ||| b2.val) >>> 12 &&& 0x3F) ::
      encode ((b0.val <<< 16 ||| b1.val <<< 8 ||| b2.val) >>> 6 &&& 0x3F) ::
      encode ((b0.val <<< 16 ||| b1.val <<< 8 ||| b2.val) &&& 0x3F) :: body, ?_, ?_⟩
    · simp only [encodeChars, hb, List.cons_append, List.length_cons]
      have e : (rest.length + 1 + 1 + 1) % 3 = rest.length % 3 := by omega
      rw [e]
    · intro c h
      simp only [List.mem_cons, sextet18, sextet12, sextet6, sextet0] at h
      rcases h with h | h | h | h | h
      · subst h; exact encode_mod_ne_pad _
      · subst h; exact encode_mod_ne_pad _
      · subst h; exact encode_mod_ne_pad _
      · subst h; exact encode_mod_ne_pad _
      · exact hc c h

/-! ## The characters that depend on the first eight bytes only -/

theorem cons_of_length_succ {α : Type} (l : List α) (n : Nat) (h : l.length = n + 1) :
    ∃ a t, l = a :: t ∧ t.length = n := by
  cases l with
  | nil => simp at h
  | cons a t => exact ⟨a, t, rfl, by simpa using h⟩

theorem eight_bytes (l : List Byte) (h : l.length = 8) :
    ∃ a b c d e f g i, l = [a, b, c, d, e, f, g, i] := by
  obtain ⟨a, l1, rfl, h1⟩ := cons_of_length_succ l 7 h
  obtain ⟨b, l2, rfl, h2⟩ := cons_of_length_succ l1 6 h1
  obtain ⟨c, l3, rfl, h3⟩ := cons_of_length_succ l2 5 h2
  obtain ⟨d, l4, rfl, h4⟩ := cons_of_length_succ l3 4 h3
  obtain ⟨e, l5, rfl, h5⟩ := cons_of_length_succ l4 3 h4
  obtain ⟨f, l6, rfl, h6⟩ := cons_of_length_succ l5 2 h5
  obtain ⟨g, l7, rfl, h7⟩ := cons_of_length_succ l6 1 h6
  obtain ⟨i, l8, rfl, h8⟩ := cons_of_length_succ l7 0 h7
  rw [List.length_eq_zero] at h8
  subst h8
  exact ⟨a, b, c, d, e, f, g, i, rfl⟩

theorem encodeChars_take_ten (id key : List Byte) (hid : id.length = 8) :
    (encodeChars (id ++ key)).take 10 = (encodeChars id).take 10 := by
  obtain ⟨a, b, c, d, e, f, g, i, rfl⟩ := eight_bytes id hid
  cases key with
  | nil => rfl
  | cons k rest =>
    simp only [List.cons_append, List.nil_append, encodeChars, List.take_succ_cons,
      List.take_zero, pack3 _ _ _ i.isLt k.isLt, sextet18, sextet12]
    rw [pack2 _ _ i.isLt]
    have hk := k.isLt
    have hi := i.isLt
    have e1 : (g.val * 65536 + i.val * 256 + k.val) / 262144 % 64
        = (g.val * 65536 + i.val * 256) / 262144 % 64 := by omega
    have e2 : (g.val * 65536 + i.val * 256 + k.val) / 4096 % 64
        = (g.val * 65536 + i.val * 256) / 4096 % 64 := by omega
    rw [e1, e2]

theorem encodeChars_eleventh (id : List Byte) (hid : id.length = 8) (k : Byte)
    (rest : List Byte) :
    (encodeChars (id ++ k :: rest)).get? 10
      = some (encode ((id.getD 7 0).val % 16 * 4 + k.val / 64)) := by
  obtain ⟨a, b, c, d, e, f, g, i, rfl⟩ := eight_bytes id hid
  simp only [List.cons_append, List.nil_append, encodeChars, List.get?_cons_succ,
    List.get?_cons_zero, pack3 _ _ _ i.isLt k.isLt, sextet6, List.getD_cons_succ,
    List.getD_cons_zero]
  have hk := k.isLt
  have hi := i.isLt
  have e1 : (g.val * 65536 + i.val * 256 + k.val) / 64 % 64 = i.val % 16 * 4 + k.val / 64 := by
    omega
  rw [e1]

theorem encodeChars_eleventh_nil (id : List Byte) (hid : id.length = 8) :
    (encodeChars (id ++ [])).get? 10 = some (encode ((id.getD 7 0).val % 16 * 4)) := by
  obtain ⟨a, b, c, d, e, f, g, i, rfl⟩ := eight_bytes id hid
  simp only [List.append_nil, encodeChars, List.get?_cons_succ,
    List.get?_cons_zero, pack2 _ _ i.isLt, sextet6, List.getD_cons_succ,
    List.getD_cons_zero]
  have hi := i.isLt
  have e1 : (g.val * 65536 + i.val * 256) / 64 % 64 = i.val % 16 * 4 := by
    omega
  rw [e1]

theorem encodeChars_eleventh_headD (id key : List Byte) (hid : id.length = 8) :
    (encodeChars (id ++ key)).get? 10
      = some (encode ((id.getD 7 0).val % 16 * 4 + (key.headD 0).val / 64)) := by
  cases key with
  | nil => exact encodeChars_eleventh_nil id hid
  | cons k rest => exact encodeChars_eleventh id hid k rest

theorem encode_injective (i j : Nat) (hi : i < 64) (hj : j < 64) (h : encode i = encode j) :
    i = j := by
  have h1 := decodeMap_encode i hi
  rw [h, decodeMap_encode j hj] at h1
  exact (Option.some.inj h1).symm

/-! ## The run as a whole -/

set_option maxRecDepth 100000 in
theorem printed_text (P S : String) :
    Printf (Printf (Printf (Printf "" "\nWelcome to Network Next!\n\n" [])
      "This is your public key:\n\n    %s\n\n" [P])
      "This is your private key:\n\n    %s\n\n" [S])
      "IMPORTANT: Save your private key in a secure place and don\x27t share it with anybody, not even us!\n\n" []
      = outputText P S := by
  apply String.ext
  simp [Printf, sprintfChars, outputText, outputLines, String.join]

set_option maxRecDepth 100000 in
theorem outputText_flat (P S : String) :
    outputText P S =
      "\nWelcome to Network Next!\n\nThis is your public key:\n\n    " ++ P
        ++ "\n\nThis is your private key:\n\n    " ++ S
        ++ "\n\nIMPORTANT: Save your private key in a secure place and don\x27t share it with anybody, not even us!\n\n" := by
  apply String.ext
  simp [outputText, outputLines, String.join]

theorem main_failure (env : Env) (e : String) (h : env.keyErr = some e) :
    main env = { exitCode := 1, stdout := "", logged := [e], buyerId := identifier env,
                 buyerPublicKey := [], buyerPrivateKey := [] } := by
  simp only [main, ed25519_GenerateKey, h, identifier]

theorem main_success (env : Env) (h : env.keyErr = none) :
    main env =
      { exitCode := 0,
        stdout := outputText (EncodeToString (identifier env ++ env.publicKey))
          (EncodeToString (identifier env ++ env.privateKey)),
        logged := [],
        buyerId := identifier env,
        buyerPublicKey := identifier env ++ env.publicKey,
        buyerPrivateKey := identifier env ++ env.privateKey } := by
  simp only [main, ed25519_GenerateKey, h, identifier, printed_text, append, make,
    List.replicate_zero, List.nil_append]

theorem identifier_length (env : Env) : (identifier env).length = 8 := by
  simp only [identifier, rand_Read, make, List.length_append, List.length_take,
    List.length_drop, List.length_replicate]
  omega

theorem identifier_of_full_draw (env : Env) (h : env.randBytes.length = 8) :
    identifier env = env.randBytes := by
  simp [identifier, rand_Read, make, h]

theorem rand_Read_full (env : Env) (h : 8 ≤ env.randBytes.length) :
    identifier env = env.randBytes.take 8 ∧ (rand_Read env (make 8)).2.2 = none := by
  have hm : min env.randBytes.length 8 = 8 := Nat.min_eq_right h
  simp only [identifier, rand_Read, make, List.length_replicate, hm, List.drop_replicate,
    Nat.sub_self, List.replicate_zero, List.append_nil, Nat.lt_irrefl, if_false, and_self]

theorem runProcess_of_full_draw (env : Env) (h : 8 ≤ env.randBytes.length) :
    runProcess env = main env := by
  have he := (rand_Read_full env h).2
  unfold runProcess
  split
  · next b n e hr => rw [hr] at he; exact absurd he (by simp)
  · rfl

theorem runProcess_of_short_draw (env : Env) (h : env.randBytes.length < 8) :
    runProcess env = rand_fatal (identifier env) := by
  have hm : min env.randBytes.length 8 = env.randBytes.length :=
    Nat.min_eq_left (Nat.le_of_lt h)
  simp only [runProcess, identifier, rand_Read, make, List.length_replicate, hm, h, if_true]

theorem publicCredential_eq (env : Env) (h : env.keyErr = none) :
    publicCredential env = EncodeToString (identifier env ++ env.publicKey) := by
  simp only [publicCredential, main_success env h]

theorem privateCredential_eq (env : Env) (h : env.keyErr = none) :
    privateCredential env = EncodeToString (identifier env ++ env.privateKey) := by
  simp only [privateCredential, main_success env h]

theorem stdout_eq (env : Env) (h : env.keyErr = none) :
    (main env).stdout = outputText (publicCredential env) (privateCredential env) := by
  rw [publicCredential_eq env h, privateCredential_eq env h, main_success env h]

/-! ## The claims -/

/-- C1: for every 8-byte identifier `id` delivered by the random source and
every key pair returned by a successful key generation, the byte string
`main` hands to the first `EncodeToString` call is exactly `id ++ publicKey`,
the one it hands to the second call is exactly `id ++ privateKey`, and the
two printed credentials are the encodings of these two byte strings. -/
theorem C1_credential_bytes (id publicKey privateKey : List Byte) (randErr : String)
    (hid : id.length = 8) :
    (main ⟨id, randErr, publicKey, privateKey, none⟩).buyerId = id ∧
    (main ⟨id, randErr, publicKey, privateKey, none⟩).buyerPublicKey = id ++ publicKey ∧
    (main ⟨id, randErr, publicKey, privateKey, none⟩).buyerPrivateKey = id ++ privateKey ∧
    (main ⟨id, randErr, publicKey, privateKey, none⟩).stdout =
      outputText (EncodeToString (id ++ publicKey)) (EncodeToString (id ++ privateKey)) := by
  have e : identifier ⟨id, randErr, publicKey, privateKey, none⟩ = id :=
    identifier_of_full_draw _ hid
  rw [main_success _ rfl, e]
  exact ⟨rfl, rfl, rfl, rfl⟩

/-- Witness of C1 at the identifier and the key pair of `goodRun`. -/
theorem C1_credential_bytes_witness :
    (main goodRun).buyerId = [0x12, 0x34, 0x56, 0x78, 0x9a, 0xbc, 0xde, 0xf0] ∧
    (main goodRun).buyerPublicKey
      = [0x12, 0x34, 0x56, 0x78, 0x9a, 0xbc, 0xde, 0xf0] ++ samplePublicKey ∧
    (main goodRun).buyerPrivateKey
      = [0x12, 0x34, 0x56, 0x78, 0x9a, 0xbc, 0xde, 0xf0] ++ samplePrivateKey ∧
    (main goodRun).stdout =
      outputText
        (EncodeToString ([0x12, 0x34, 0x56, 0x78, 0x9a, 0xbc, 0xde, 0xf0] ++ samplePublicKey))
        (EncodeToString ([0x12, 0x34, 0x56, 0x78, 0x9a, 0xbc, 0xde, 0xf0] ++ samplePrivateKey)) :=
  C1_credential_bytes [0x12, 0x34, 0x56, 0x78, 0x9a, 0xbc, 0xde, 0xf0] samplePublicKey
    samplePrivateKey "" (by decide)

/-- C2: when `ed25519.GenerateKey` returns an error, `main` ends with a
non-zero exit status and has written nothing to standard output; when it
returns no error, `main` ends with exit status 0. -/
theorem C2_exit_status (env : Env) :
    (env.keyErr ≠ none → (main env).exitCode ≠ 0 ∧ (main env).stdout = "") ∧
    (env.keyErr = none → (main env).exitCode = 0) := by
  constructor
  · intro h
    cases hk : env.keyErr with
    | none => exact absurd hk h
    | some e =>
      rw [main_failure env e hk]
      exact ⟨Nat.one_ne_zero, rfl⟩
  · intro h
    rw [main_success env h]

/-- Witness of C2: `failedKeyRun` for the failing branch, `goodRun` for the successful one. -/
theorem C2_exit_status_witness :
    ((main failedKeyRun).exitCode ≠ 0 ∧ (main failedKeyRun).stdout = "") ∧
    (main goodRun).exitCode = 0 :=
  ⟨(C2_exit_status failedKeyRun).1 (by decide), (C2_exit_status goodRun).2 rfl⟩

/-- C3: in every run in which the draw of the 8 identifier bytes fails (the
read for `rand.Read` reports an error, or fills fewer than 8 bytes), the
process ends with a non-zero exit status and has written nothing to
standard output, whatever key generation would have returned.  A run that
prints anything has an identifier that is exactly the first 8 bytes the
random source delivered, and after a full draw the process is the run of
`main`. -/
theorem C3_failed_draw_is_fatal (env : Env) :
    ((rand_Read env (make 8)).2.2 ≠ none ∨ (rand_Read env (make 8)).2.1 < 8 →
      (runProcess env).exitCode ≠ 0 ∧ (runProcess env).stdout = "") ∧
    ((runProcess env).stdout ≠ "" →
      8 ≤ env.randBytes.length ∧ (runProcess env).buyerId = env.randBytes.take 8) ∧
    (8 ≤ env.randBytes.length → runProcess env = main env) := by
  refine ⟨?_, ?_, runProcess_of_full_draw env⟩
  · intro h
    have hs : env.randBytes.length < 8 := by
      rcases h with h | h
      · by_contra hc
        exact h (rand_Read_full env (Nat.le_of_not_lt hc)).2
      · have hn : (rand_Read env (make 8)).2.1 = min env.randBytes.length 8 := by
          simp only [rand_Read, make, List.length_replicate]
        rw [hn] at h
        omega
    rw [runProcess_of_short_draw env hs]
    exact ⟨Nat.succ_ne_zero 1, rfl⟩
  · intro h
    by_cases hs : env.randBytes.length < 8
    · rw [runProcess_of_short_draw env hs] at h
      exact absurd rfl h
    · have hf : 8 ≤ env.randBytes.length := Nat.le_of_not_lt hs
      refine ⟨hf, ?_⟩
      rw [runProcess_of_full_draw env hf]
      have hb : (main env).buyerId = identifier env := by
        cases hk : env.keyErr with
        | none => rw [main_success env hk]
        | some e => rw [main_failure env e hk]
      rw [hb]
      exact (rand_Read_full env hf).1

/-- Witness of C3: the process ends with a failure and prints nothing at
`failedDrawRun`, and `goodRun`, which prints, has the identifier the source
delivered. -/
theorem C3_failed_draw_is_fatal_witness :
    ((runProcess failedDrawRun).exitCode ≠ 0 ∧ (runProcess failedDrawRun).stdout = "") ∧
    (8 ≤ goodRun.randBytes.length ∧
      (runProcess goodRun).buyerId = [0x12, 0x34, 0x56, 0x78, 0x9a, 0xbc, 0xde, 0xf0]) :=
  ⟨(C3_failed_draw_is_fatal failedDrawRun).1 (Or.inl (by decide)),
   (C3_failed_draw_is_fatal goodRun).2.1 (by decide)⟩

/-- C4: in a successful run whose key generation returns a 32-byte public
key and a 64-byte private key, whatever the random source delivered, the
printed public credential decodes to exactly 40 bytes and the printed
private credential decodes to exactly 72 bytes. -/
theorem C4_decoded_lengths (env : Env) (hkey : env.keyErr = none)
    (hpub : env.publicKey.length = 32) (hpriv : env.privateKey.length = 64) :
    (main env).stdout = outputText (publicCredential env) (privateCredential env) ∧
    ∃ dpub dpriv,
      DecodeString (publicCredential env) = some dpub ∧ dpub.length = 40 ∧
      DecodeString (privateCredential env) = some dpriv ∧ dpriv.length = 72 := by
  refine ⟨stdout_eq env hkey, identifier env ++ env.publicKey,
    identifier env ++ env.privateKey, ?_, ?_, ?_, ?_⟩
  · rw [publicCredential_eq env hkey, DecodeString_EncodeToString]
  · rw [List.length_append, identifier_length, hpub]
  · rw [privateCredential_eq env hkey, DecodeString_EncodeToString]
  · rw [List.length_append, identifier_length, hpriv]

/-- Witness of C4 at `failedDrawRun`, where the random source delivered nothing. -/
theorem C4_decoded_lengths_witness :
    failedDrawRun.keyErr = none ∧ failedDrawRun.publicKey.length = 32 ∧
    failedDrawRun.privateKey.length = 64 ∧
    (main failedDrawRun).stdout
      = outputText (publicCredential failedDrawRun) (privateCredential failedDrawRun) ∧
    ∃ dpub dpriv,
      DecodeString (publicCredential failedDrawRun) = some dpub ∧ dpub.length = 40 ∧
      DecodeString (privateCredential failedDrawRun) = some dpriv ∧ dpriv.length = 72 :=
  ⟨rfl, by decide, by decide, C4_decoded_lengths failedDrawRun rfl (by decide) (by decide)⟩

/-- C5: in a successful run the first 8 bytes of the decoded public
credential equal the first 8 bytes of the decoded private credential, and
both are the identifier buffer `buyerId` filled at the start of the run. -/
theorem C5_shared_identifier (env : Env) (hkey : env.keyErr = none) :
    (main env).stdout = outputText (publicCredential env) (privateCredential env) ∧
    ∃ dpub dpriv,
      DecodeString (publicCredential env) = some dpub ∧
      DecodeString (privateCredential env) = some dpriv ∧
      dpub.take 8 = dpriv.take 8 ∧
      dpub.take 8 = (main env).buyerId ∧
      dpriv.take 8 = (main env).buyerId ∧
      (main env).buyerId = (rand_Read env (make 8)).1 := by
  have hp : (identifier env ++ env.publicKey).take 8 = identifier env :=
    List.take_left' (identifier_length env)
  have hs : (identifier env ++ env.privateKey).take 8 = identifier env :=
    List.take_left' (identifier_length env)
  have hb : (main env).buyerId = identifier env := by rw [main_success env hkey]
  refine ⟨stdout_eq env hkey, identifier env ++ env.publicKey,
    identifier env ++ env.privateKey, ?_, ?_, ?_, ?_, ?_, ?_⟩
  · rw [publicCredential_eq env hkey, DecodeString_EncodeToString]
  · rw [privateCredential_eq env hkey, DecodeString_EncodeToString]
  · rw [hp, hs]
  · rw [hp, hb]
  · rw [hs, hb]
  · rw [hb]; rfl

/-- Witness of C5 at `goodRun`. -/
theorem C5_shared_identifier_witness :
    goodRun.keyErr = none ∧
    (main goodRun).stdout = outputText (publicCredential goodRun) (privateCredential goodRun) ∧
    ∃ dpub dpriv,
      DecodeString (publicCredential goodRun) = some dpub ∧
      DecodeString (privateCredential goodRun) = some dpriv ∧
      dpub.take 8 = dpriv.take 8 ∧
      dpub.take 8 = (main goodRun).buyerId ∧
      dpriv.take 8 = (main goodRun).buyerId ∧
      (main goodRun).buyerId = (rand_Read goodRun (make 8)).1 :=
  ⟨rfl, C5_shared_identifier goodRun rfl⟩

/-- C6: in a successful run each printed credential is valid padded
standard base64: decoding it succeeds, encoding the decoded bytes again
gives the same string, and decoding the encoding of the raw credential
bytes gives those raw bytes back. -/
theorem C6_base64_round_trip (env : Env) (hkey : env.keyErr = none) :
    (main env).stdout = outputText (publicCredential env) (privateCredential env) ∧
    (∃ d, DecodeString (publicCredential env) = some d ∧
      EncodeToString d = publicCredential env) ∧
    (∃ d, DecodeString (privateCredential env) = some d ∧
      EncodeToString d = privateCredential env) ∧
    DecodeString (EncodeToString (main env).buyerPublicKey) = some (main env).buyerPublicKey ∧
    DecodeString (EncodeToString (main env).buyerPrivateKey)
      = some (main env).buyerPrivateKey :=
  ⟨stdout_eq env hkey,
   ⟨(main env).buyerPublicKey, DecodeString_EncodeToString _, rfl⟩,
   ⟨(main env).buyerPrivateKey, DecodeString_EncodeToString _, rfl⟩,
   DecodeString_EncodeToString _, DecodeString_EncodeToString _⟩

/-- Witness of C6 at `goodRun`. -/
theorem C6_base64_round_trip_witness :
    goodRun.keyErr = none ∧
    (main goodRun).stdout = outputText (publicCredential goodRun) (privateCredential goodRun) ∧
    (∃ d, DecodeString (publicCredential goodRun) = some d ∧
      EncodeToString d = publicCredential goodRun) ∧
    (∃ d, DecodeString (privateCredential goodRun) = some d ∧
      EncodeToString d = privateCredential goodRun) ∧
    DecodeString (EncodeToString (main goodRun).buyerPublicKey)
      = some (main goodRun).buyerPublicKey ∧
    DecodeString (EncodeToString (main goodRun).buyerPrivateKey)
      = some (main goodRun).buyerPrivateKey :=
  ⟨rfl, C6_base64_round_trip goodRun rfl⟩

/-- C7: in a successful run with encoded public credential `P` and encoded
private credential `S`, the text on standard output is exactly thirteen
lines, each ended by a newline: blank, the welcome line, blank, the public
key label, blank, four spaces and `P`, blank, the private key label, blank,
four spaces and `S`, blank, the warning, blank. -/
theorem C7_standard_output (env : Env) (hkey : env.keyErr = none) :
    (main env).stdout =
      String.join
        (["",
          "Welcome to Network Next!",
          "",
          "This is your public key:",
          "",
          "    " ++ publicCredential env,
          "",
          "This is your private key:",
          "",
          "    " ++ privateCredential env,
          "",
          "IMPORTANT: Save your private key in a secure place and don\x27t share it with anybody, not even us!",
          ""].map fun line => line ++ "\n") ∧
    (main env).stdout =
      "\nWelcome to Network Next!\n\nThis is your public key:\n\n    "
        ++ publicCredential env
        ++ "\n\nThis is your private key:\n\n    "
        ++ privateCredential env
        ++ "\n\nIMPORTANT: Save your private key in a secure place and don\x27t share it with anybody, not even us!\n\n" := by
  refine ⟨stdout_eq env hkey, ?_⟩
  rw [stdout_eq env hkey]
  exact outputText_flat _ _

/-- Witness of C7 at `goodRun`. -/
theorem C7_standard_output_witness :
    goodRun.keyErr = none ∧
    (main goodRun).stdout =
      String.join
        (["",
          "Welcome to Network Next!",
          "",
          "This is your public key:",
          "",
          "    " ++ publicCredential goodRun,
          "",
          "This is your private key:",
          "",
          "    " ++ privateCredential goodRun,
          "",
          "IMPORTANT: Save your private key in a secure place and don\x27t share it with anybody, not even us!",
          ""].map fun line => line ++ "\n") :=
  ⟨rfl, (C7_standard_output goodRun rfl).1⟩

/-- C8: in a successful run the decoded public credential, past its first
8 bytes, is exactly the public key returned by the one `GenerateKey` call,
and the decoded private credential, past its first 8 bytes, is exactly the
private key returned by that call (bytes 9..40 and 9..72 for the 32- and
64-byte keys of Ed25519).  Hence for any signature scheme, if a signature
made with the returned private key verifies under the returned public key,
then signing a nonce with the key part of the private credential and
verifying with the key part of the public credential succeeds. -/
theorem C8_matching_key_pair (env : Env) (hkey : env.keyErr = none) :
    (main env).stdout = outputText (publicCredential env) (privateCredential env) ∧
    ∃ dpub dpriv,
      DecodeString (publicCredential env) = some dpub ∧
      DecodeString (privateCredential env) = some dpriv ∧
      dpub.drop 8 = (ed25519_GenerateKey env).1 ∧
      dpriv.drop 8 = (ed25519_GenerateKey env).2.1 ∧
      ((ed25519_GenerateKey env).1.length = 32 →
        dpub.length = 40 ∧ (dpub.drop 8).take 32 = (ed25519_GenerateKey env).1) ∧
      ((ed25519_GenerateKey env).2.1.length = 64 →
        dpriv.length = 72 ∧ (dpriv.drop 8).take 64 = (ed25519_GenerateKey env).2.1) ∧
      ∀ (sign : List Byte → List Byte → List Byte)
        (verify : List Byte → List Byte → List Byte → Bool) (nonce : List Byte),
        verify (ed25519_GenerateKey env).1 nonce
            (sign (ed25519_GenerateKey env).2.1 nonce) = true →
          verify (dpub.drop 8) nonce (sign (dpriv.drop 8) nonce) = true := by
  have hp : (identifier env ++ env.publicKey).drop 8 = env.publicKey :=
    List.drop_left' (identifier_length env)
  have hs : (identifier env ++ env.privateKey).drop 8 = env.privateKey :=
    List.drop_left' (identifier_length env)
  refine ⟨stdout_eq env hkey, identifier env ++ env.publicKey,
    identifier env ++ env.privateKey, ?_, ?_, ?_, ?_, ?_, ?_, ?_⟩
  · rw [publicCredential_eq env hkey, DecodeString_EncodeToString]
  · rw [privateCredential_eq env hkey, DecodeString_EncodeToString]
  · exact hp
  · exact hs
  · intro h
    simp only [ed25519_GenerateKey] at h ⊢
    rw [hp, List.length_append, identifier_length, h]
    exact ⟨rfl, List.take_of_length_le (Nat.le_of_eq h)⟩
  · intro h
    simp only [ed25519_GenerateKey] at h ⊢
    rw [hs, List.length_append, identifier_length, h]
    exact ⟨rfl, List.take_of_length_le (Nat.le_of_eq h)⟩
  · intro sign verify nonce h
    simp only [ed25519_GenerateKey] at h
    rw [hp, hs]
    exact h

/-- Witness of C8 at `goodRun`: the key parts of the two decoded credentials
are the sample key pair, at the byte positions 9..40 and 9..72. -/
theorem C8_matching_key_pair_witness :
    goodRun.keyErr = none ∧
    ∃ dpub dpriv,
      DecodeString (publicCredential goodRun) = some dpub ∧
      DecodeString (privateCredential goodRun) = some dpriv ∧
      (dpub.drop 8).take 32 = samplePublicKey ∧
      (dpriv.drop 8).take 64 = samplePrivateKey := by
  obtain ⟨_, dpub, dpriv, h1, h2, _, _, h5, h6, _⟩ := C8_matching_key_pair goodRun rfl
  exact ⟨rfl, dpub, dpriv, h1, h2, (h5 (by decide)).2, (h6 (by decide)).2⟩

/-- C9: in a successful run with a 32-byte public key and a 64-byte private
key, the printed public credential has exactly 56 characters, of which the
last two, and only these, are the padding character `=`; the printed
private credential has exactly 96 characters, none of which is `=`. -/
theorem C9_credential_text_shape (env : Env) (hkey : env.keyErr = none)
    (hpub : env.publicKey.length = 32) (hpriv : env.privateKey.length = 64) :
    (main env).stdout = outputText (publicCredential env) (privateCredential env) ∧
    (publicCredential env).length = 56 ∧
    (publicCredential env).data.drop 54 = ['=', '='] ∧
    (∀ c ∈ (publicCredential env).data.take 54, c ≠ '=') ∧
    (privateCredential env).length = 96 ∧
    (∀ c ∈ (privateCredential env).data, c ≠ '=') := by
  have lp : (identifier env ++ env.publicKey).length = 40 := by
    rw [List.length_append, identifier_length, hpub]
  have ls : (identifier env ++ env.privateKey).length = 72 := by
    rw [List.length_append, identifier_length, hpriv]
  have np := encodeChars_length (identifier env ++ env.publicKey)
  have ns := encodeChars_length (identifier env ++ env.privateKey)
  rw [lp] at np
  rw [ls] at ns
  obtain ⟨bp, hbp, cp⟩ := encodeChars_padding (identifier env ++ env.publicKey)
  obtain ⟨bs, hbs, cs⟩ := encodeChars_padding (identifier env ++ env.privateKey)
  rw [lp] at hbp
  rw [ls] at hbs
  have hbp2 : encodeChars (identifier env ++ env.publicKey) = bp ++ ['=', '='] := hbp
  have hbs2 : encodeChars (identifier env ++ env.privateKey) = bs := by
    rw [hbs]; exact List.append_nil bs
  have lbp : bp.length = 54 := by
    rw [hbp2, List.length_append] at np
    simp only [List.length_cons, List.length_nil] at np
    omega
  rw [publicCredential_eq env hkey, privateCredential_eq env hkey]
  refine ⟨?_, ?_, ?_, ?_, ?_, ?_⟩
  · rw [← publicCredential_eq env hkey, ← privateCredential_eq env hkey]
    exact stdout_eq env hkey
  · exact np
  · show (encodeChars (identifier env ++ env.publicKey)).drop 54 = ['=', '=']
    rw [hbp2, List.drop_left' lbp]
  · show ∀ c ∈ (encodeChars (identifier env ++ env.publicKey)).take 54, c ≠ '='
    rw [hbp2, List.take_left' lbp]
    exact cp
  · exact ns
  · show ∀ c ∈ encodeChars (identifier env ++ env.privateKey), c ≠ '='
    rw [hbs2]
    exact cs

/-- Witness of C9 at `goodRun`. -/
theorem C9_credential_text_shape_witness :
    goodRun.keyErr = none ∧ goodRun.publicKey.length = 32 ∧ goodRun.privateKey.length = 64 ∧
    (main goodRun).stdout = outputText (publicCredential goodRun) (privateCredential goodRun) ∧
    (publicCredential goodRun).length = 56 ∧
    (publicCredential goodRun).data.drop 54 = ['=', '='] ∧
    (∀ c ∈ (publicCredential goodRun).data.take 54, c ≠ '=') ∧
    (privateCredential goodRun).length = 96 ∧
    (∀ c ∈ (privateCredential goodRun).data, c ≠ '=') :=
  ⟨rfl, by decide, by decide, C9_credential_text_shape goodRun rfl (by decide) (by decide)⟩

/-- C10: in a successful run the first 10 characters of the printed public
credential equal the first 10 characters of the printed private credential,
and they are fixed by the identifier alone: every successful run with the
same identifier prints the same 10 characters, whatever its key pair.  The
11th character is the alphabet entry for four bits of the last identifier
byte followed by the top two bits of the first key byte, and some
successful run with the same identifier prints a different 11th character. -/
theorem C10_identifier_characters (env : Env) (hkey : env.keyErr = none) :
    (main env).stdout = outputText (publicCredential env) (privateCredential env) ∧
    ((publicCredential env).data.take 10).length = 10 ∧
    (publicCredential env).data.take 10 = (privateCredential env).data.take 10 ∧
    (∀ env2 : Env, env2.keyErr = none → identifier env2 = identifier env →
      (publicCredential env2).data.take 10 = (publicCredential env).data.take 10 ∧
      (privateCredential env2).data.take 10 = (publicCredential env).data.take 10) ∧
    (∀ k rest, env.publicKey = k :: rest →
      (publicCredential env).data.get? 10
        = some (encode (((identifier env).getD 7 0).val % 16 * 4 + k.val / 64))) ∧
    (∃ env2 : Env, env2.keyErr = none ∧ identifier env2 = identifier env ∧
      (publicCredential env2).data.get? 10 ≠ (publicCredential env).data.get? 10) := by
  have hlen := identifier_length env
  have tp : ∀ (e : Env), e.keyErr = none → identifier e = identifier env →
      (publicCredential e).data.take 10 = (encodeChars (identifier env)).take 10 := by
    intro e he hi
    rw [publicCredential_eq e he, hi]
    exact encodeChars_take_ten _ _ hlen
  have ts : ∀ (e : Env), e.keyErr = none → identifier e = identifier env →
      (privateCredential e).data.take 10 = (encodeChars (identifier env)).take 10 := by
    intro e he hi
    rw [privateCredential_eq e he, hi]
    exact encodeChars_take_ten _ _ hlen
  have el : ∀ (e : Env), e.keyErr = none → identifier e = identifier env →
      (publicCredential e).data.get? 10
        = some (encode (((identifier env).getD 7 0).val % 16 * 4
            + (e.publicKey.headD 0).val / 64)) := by
    intro e he hi
    rw [publicCredential_eq e he, hi]
    exact encodeChars_eleventh_headD _ _ hlen
  refine ⟨stdout_eq env hkey, ?_, ?_, ?_, ?_, ?_⟩
  · rw [tp env hkey rfl, List.length_take, encodeChars_length, hlen]
    rfl
  · rw [tp env hkey rfl, ts env hkey rfl]
  · intro env2 h2 hi
    rw [tp env hkey rfl]
    exact ⟨tp env2 h2 hi, ts env2 h2 hi⟩
  · intro k rest hk
    rw [el env hkey rfl, hk]
    rfl
  · have hq : (env.publicKey.headD 0).val / 64 < 4 := by
      have := (env.publicKey.headD 0).isLt
      omega
    have hh : ((identifier env).getD 7 0).val % 16 * 4 ≤ 60 := by omega
    by_cases h0 : (env.publicKey.headD 0).val / 64 = 0
    · refine ⟨{ env with publicKey := [255] }, hkey, rfl, ?_⟩
      rw [el env hkey rfl, el { env with publicKey := [255] } hkey rfl]
      intro h
      have h3 := encode_injective _ _ (by simp only [List.headD_cons]; omega) (by omega)
        (Option.some.inj h)
      simp only [List.headD_cons] at h3
      have e255 : ((255 : Byte).val) / 64 = 3 := by decide
      omega
    · refine ⟨{ env with publicKey := [0] }, hkey, rfl, ?_⟩
      rw [el env hkey rfl, el { env with publicKey := [0] } hkey rfl]
      intro h
      have h3 := encode_injective _ _ (by simp only [List.headD_cons]; omega) (by omega)
        (Option.some.inj h)
      simp only [List.headD_cons] at h3
      have e0 : ((0 : Byte).val) / 64 = 0 := by decide
      omega

/-- Witness of C10 at `goodRun`: both credentials start with `EjRWeJq83v`. -/
theorem C10_identifier_characters_witness :
    goodRun.keyErr = none ∧
    (publicCredential goodRun).data.take 10 = "EjRWeJq83v".data ∧
    (privateCredential goodRun).data.take 10 = "EjRWeJq83v".data := by
  have h := (C10_identifier_characters goodRun rfl).2.2.1
  refine ⟨rfl, by decide, ?_⟩
  rw [← h]
  decide

end Keygen
